import Mathlib

/-!
Verification of the multigres backend-connection protocol layer and
session-state reconciliation engine, embedded shallowly from the Go source:

* `go/common/sqltypes` — nullable `Value`/`Row`, the length-prefixed proto
  codec (`Row.ToProto` / `RowFromProto`), and the `PgDiagnostic` model with
  its proto conversions, classification and rendering helpers;
* `go/common/mterrors/pgerror.go` — the `PgError` leaf error and
  `AsPgError` extraction over Go error chains;
* the scatter-conn `mergedSettings` algorithm, the authentication negotiation and
  parameter-status tracking of the backend connection (modelled from
  the spec where the implementation is outside the provided sources).

Go byte strings are modelled as `List Nat`, Go maps as association lists,
Go `nil`-able pointers as `Option`, and a Go runtime panic as the `none`
branch of an `Option` result.
-/

set_option maxHeartbeats 1000000

namespace Multigres

/-! ## Row / Value codec (go/common/sqltypes)

`Value` represents a nullable column value: `none` means SQL NULL,
`some bs` a (possibly empty) byte sequence. -/

/-- Source `Value` from sqltypes: `nil` means NULL, `[]byte{}` means empty string. -/
def Value := Option (List Nat)

instance : DecidableEq Value := by unfold Value; infer_instance

/-- Source `Row` from sqltypes: a row with nullable column values. -/
structure Row where
  values : List Value
deriving DecidableEq

/-- Source `query.Row` proto: parallel `Lengths` (int64) and concatenated `Values`. -/
structure ProtoRow where
  lengths : List Int
  values : List Nat
deriving DecidableEq

/-- The length sentinel `Row.ToProto` writes for one value:
`-1` for NULL, otherwise the byte length. -/
def lengthOf (v : Value) : Int :=
  match v with
  | none => -1
  | some bs => (bs.length : Int)

/-- The concatenated bytes `Row.ToProto` accumulates: the bytes of each non-NULL value appended in order. -/
def protoValues : List Value → List Nat
  | [] => []
  | none :: rest => protoValues rest
  | some bs :: rest => bs ++ protoValues rest

/-- Source `Row.ToProto` from sqltypes: `-1` = NULL, `0` = empty string,
`> 0` = actual length, with non-NULL bytes concatenated. -/
def rowToProto (r : Row) : ProtoRow :=
  { lengths := r.values.map lengthOf
    values := protoValues r.values }

/-- The loop body of `RowFromProto`: walk the declared lengths keeping a
byte offset into the concatenation.  The Go statement
`values[i] = pr.Values[offset : offset+int(length)]` panics at runtime when
the slice bounds are invalid (`length` negative other than `-1`, or
`offset+length` past the available bytes); that panic is modelled by the
`none` result, which propagates to the whole decode. -/
def rowFromProtoAux : List Int → List Nat → Nat → Option (List Value)
  | [], _, _ => some []
  | length :: rest, vals, offset =>
    if length = -1 then
      (rowFromProtoAux rest vals offset).map (fun vs => (none : Value) :: vs)
    else if length = 0 then
      (rowFromProtoAux rest vals offset).map (fun vs => (some [] : Value) :: vs)
    else
      if 0 < length ∧ offset + length.toNat ≤ vals.length then
        (rowFromProtoAux rest vals (offset + length.toNat)).map
          (fun vs => (some ((vals.drop offset).take length.toNat) : Value) :: vs)
      else
        none

/-- Source `RowFromProto` from sqltypes: decode `(lengths, values)` back into a
`Row`.  `none` models the Go runtime panic on invalid slice bounds. -/
def rowFromProto (pr : ProtoRow) : Option Row :=
  (rowFromProtoAux pr.lengths pr.values 0).map Row.mk

/-- Total byte count the declared lengths claim from the concatenation
(negative and zero sentinels contribute nothing). -/
def declaredBytes : List Int → Nat
  | [] => 0
  | length :: rest => length.toNat + declaredBytes rest

/-! ### Codec lemmas -/

theorem protoValues_nil_cons (rest : List Value) :
    protoValues ((none : Value) :: rest) = protoValues rest := rfl

theorem protoValues_some_cons (bs : List Nat) (rest : List Value) :
    protoValues ((some bs : Value) :: rest) = bs ++ protoValues rest := rfl

theorem rowFromProtoAux_roundtrip (vs : List Value) :
    ∀ pre : List Nat,
      rowFromProtoAux (vs.map lengthOf) (pre ++ protoValues vs) pre.length =
        some vs := by
  induction vs with
  | nil => intro pre; simp [rowFromProtoAux]
  | cons v rest ih =>
    intro pre
    match v with
    | none =>
      simp only [List.map_cons, protoValues_nil_cons]
      rw [rowFromProtoAux]
      have hl : lengthOf none = -1 := rfl
      rw [hl, if_pos rfl, ih pre]
      rfl
    | some bs =>
      simp only [List.map_cons, protoValues_some_cons]
      rw [rowFromProtoAux]
      have hl : lengthOf (some bs) = (bs.length : Int) := rfl
      rw [hl]
      by_cases hbs : bs = []
      · subst hbs
        simp only [List.length_nil, Nat.cast_zero, List.nil_append]
        rw [if_neg (by decide), if_pos trivial, ih pre]
        rfl
      · have hpos : 0 < bs.length := List.length_pos.mpr hbs
        have hne1 : ¬((bs.length : Int) = -1) := by omega
        have hne2 : ¬((bs.length : Int) = 0) := by omega
        rw [if_neg hne1, if_neg hne2]
        have htoNat : ((bs.length : Int)).toNat = bs.length := Int.toNat_natCast _
        have hcond : (0 : Int) < (bs.length : Int) ∧
            pre.length + ((bs.length : Int)).toNat ≤
              (pre ++ (bs ++ protoValues rest)).length := by
          refine ⟨by exact_mod_cast hpos, ?_⟩
          rw [htoNat]; simp only [List.length_append]; omega
        rw [if_pos hcond, htoNat]
        have hdrop : (pre ++ (bs ++ protoValues rest)).drop pre.length =
            bs ++ protoValues rest := List.drop_left pre _
        have htake : (bs ++ protoValues rest).take bs.length = bs :=
          List.take_left bs _
        rw [hdrop, htake]
        have hassoc : pre ++ (bs ++ protoValues rest) =
            (pre ++ bs) ++ protoValues rest := (List.append_assoc pre bs _).symm
        have hlen : pre.length + bs.length = (pre ++ bs).length := by simp
        rw [hassoc, hlen, ih (pre ++ bs)]
        rfl

/-- C2 row half: decoding an encoded row succeeds and restores the row,
NULL/empty distinction included. -/
theorem rowFromProto_rowToProto (r : Row) :
    rowFromProto (rowToProto r) = some r := by
  have h := rowFromProtoAux_roundtrip r.values []
  simp only [List.nil_append, List.length_nil] at h
  simp [rowFromProto, rowToProto, h]

/-- Walking lengths that claim more bytes than remain past a valid offset
always hits the panic branch. -/
theorem rowFromProtoAux_overrun (lengths : List Int) :
    ∀ (vals : List Nat) (offset : Nat),
      offset ≤ vals.length →
      vals.length < offset + declaredBytes lengths →
      rowFromProtoAux lengths vals offset = none := by
  induction lengths with
  | nil =>
    intro vals offset hle hlt
    simp [declaredBytes] at hlt
    omega
  | cons length rest ih =>
    intro vals offset hle hlt
    rw [rowFromProtoAux]
    by_cases h1 : length = -1
    · subst h1
      have : declaredBytes (-1 :: rest) = declaredBytes rest := by
        simp [declaredBytes]
      rw [this] at hlt
      rw [if_pos rfl, ih vals offset hle hlt]
      rfl
    · rw [if_neg h1]
      by_cases h2 : length = 0
      · subst h2
        have : declaredBytes (0 :: rest) = declaredBytes rest := by
          simp [declaredBytes]
        rw [this] at hlt
        rw [if_pos rfl, ih vals offset hle hlt]
        rfl
      · rw [if_neg h2]
        by_cases h3 : 0 < length ∧ offset + length.toNat ≤ vals.length
        · rw [if_pos h3]
          have hrec : rowFromProtoAux rest vals (offset + length.toNat) = none := by
            apply ih vals (offset + length.toNat) h3.2
            have : declaredBytes (length :: rest) =
                length.toNat + declaredBytes rest := rfl
            omega
          rw [hrec]; rfl
        · rw [if_neg h3]

/-! ## PgDiagnostic (go/common/sqltypes)

All 14 PostgreSQL diagnostic fields plus the protocol message-type byte.
Go `byte` and `int32` are modelled as `Nat` and `Int`. -/

/-- Source `protocol.MsgErrorResponse`: the ErrorResponse tag byte, ASCII `E`. -/
def MsgErrorResponse : Nat := 69

/-- Source `protocol.MsgNoticeResponse`: the NoticeResponse tag byte, ASCII `N`. -/
def MsgNoticeResponse : Nat := 78

/-- Source `sqltypes.PgDiagnostic`. -/
structure PgDiagnostic where
  MessageType : Nat
  Severity : String
  Code : String
  Message : String
  Detail : String
  Hint : String
  Position : Int
  InternalPosition : Int
  InternalQuery : String
  Where : String
  Schema : String
  Table : String
  Column : String
  DataType : String
  Constraint : String
deriving DecidableEq

/-- Source `query.PgDiagnostic` proto message: `message_type` is an `int32`. -/
structure ProtoPgDiagnostic where
  MessageType : Int
  Severity : String
  Code : String
  Message : String
  Detail : String
  Hint : String
  Position : Int
  InternalPosition : Int
  InternalQuery : String
  Where : String
  SchemaName : String
  TableName : String
  ColumnName : String
  DataTypeName : String
  ConstraintName : String
deriving DecidableEq

/-- Source `PgDiagnosticToProto` (non-nil case): field-for-field copy, widening the
message-type byte to `int32`. -/
def PgDiagnosticToProto (d : PgDiagnostic) : ProtoPgDiagnostic :=
  { MessageType := (d.MessageType : Int)
    Severity := d.Severity
    Code := d.Code
    Message := d.Message
    Detail := d.Detail
    Hint := d.Hint
    Position := d.Position
    InternalPosition := d.InternalPosition
    InternalQuery := d.InternalQuery
    Where := d.Where
    SchemaName := d.Schema
    TableName := d.Table
    ColumnName := d.Column
    DataTypeName := d.DataType
    ConstraintName := d.Constraint }

/-- Source `PgDiagnosticFromProto` (non-nil case): field-for-field copy, truncating
the `int32` message type to a byte as Go `byte(pd.MessageType)` does. -/
def PgDiagnosticFromProto (pd : ProtoPgDiagnostic) : PgDiagnostic :=
  { MessageType := (pd.MessageType % 256).toNat
    Severity := pd.Severity
    Code := pd.Code
    Message := pd.Message
    Detail := pd.Detail
    Hint := pd.Hint
    Position := pd.Position
    InternalPosition := pd.InternalPosition
    InternalQuery := pd.InternalQuery
    Where := pd.Where
    Schema := pd.SchemaName
    Table := pd.TableName
    Column := pd.ColumnName
    DataType := pd.DataTypeName
    Constraint := pd.ConstraintName }

/-- Source `PgDiagnostic.IsError`: whether MessageType is the byte E. -/
def PgDiagnostic.IsError (d : PgDiagnostic) : Bool :=
  d.MessageType == MsgErrorResponse

/-- Source `PgDiagnostic.IsNotice`: whether MessageType is the byte N. -/
def PgDiagnostic.IsNotice (d : PgDiagnostic) : Bool :=
  d.MessageType == MsgNoticeResponse

/-- Source `PgDiagnostic.SQLSTATEClass`: first 2 characters of the code, empty
when the code has fewer than 2 characters. -/
def PgDiagnostic.SQLSTATEClass (d : PgDiagnostic) : String :=
  if d.Code.length < 2 then "" else d.Code.take 2

/-- Source `PgDiagnostic.IsClass`: equality on the 2-character class prefix. -/
def PgDiagnostic.IsClass (d : PgDiagnostic) (class_ : String) : Bool :=
  d.SQLSTATEClass == class_

/-- Source `PgDiagnostic.IsFatal`: true only for FATAL and PANIC severities. -/
def PgDiagnostic.IsFatal (d : PgDiagnostic) : Bool :=
  d.Severity == "FATAL" || d.Severity == "PANIC"

/-- Source `PgDiagnostic.Error` including the nil-receiver branch: `none` models a
nil `*PgDiagnostic`. -/
def pgDiagnosticErrorStr (d : Option PgDiagnostic) : String :=
  match d with
  | none => "ERROR: unknown error"
  | some d => d.Severity ++ ": " ++ d.Message

/-- Source `PgDiagnostic.FullError` including the nil-receiver branch. -/
def pgDiagnosticFullErrorStr (d : Option PgDiagnostic) : String :=
  match d with
  | none => "ERROR: unknown error (SQLSTATE 00000)"
  | some d => d.Severity ++ ": " ++ d.Message ++ " (SQLSTATE " ++ d.Code ++ ")"

/-! ### Validate -/

/-- One character rendered the way the Go format verb c renders a byte. -/
def charOf (b : Nat) : String := String.singleton (Char.ofNat b)

/-- One hex digit (lowercase), as the Go format verb x uses. -/
def hexDigit (n : Nat) : Char := "0123456789abcdef".data.getD n '0'

/-- A byte rendered the way the Go format verb 02x renders it. -/
def byteHex (b : Nat) : String := String.mk [hexDigit (b / 16 % 16), hexDigit (b % 16)]

/-- Whether the message-class tag is valid: the byte E or the byte N. -/
def validMessageType (d : PgDiagnostic) : Prop :=
  d.MessageType = MsgErrorResponse ∨ d.MessageType = MsgNoticeResponse

instance (d : PgDiagnostic) : Decidable (validMessageType d) := by
  unfold validMessageType; infer_instance

/-- The issue string `Validate` records for an invalid message-class tag. -/
def msgTypeIssue (d : PgDiagnostic) : String :=
  if d.MessageType = 0 then
    "MessageType is unset (0x00): must be \x27E\x27 or \x27N\x27"
  else
    "invalid MessageType \x27" ++ charOf d.MessageType ++ "\x27 (0x" ++
      byteHex d.MessageType ++ "): must be \x27E\x27 or \x27N\x27"

/-- The `issues` list `PgDiagnostic.Validate` accumulates, in order. -/
def validateIssues (d : PgDiagnostic) : List String :=
  (if ¬ validMessageType d then [msgTypeIssue d] else []) ++
  (if d.Severity = "" then ["Severity is empty"] else []) ++
  (if d.Code = "" then ["Code (SQLSTATE) is empty"] else []) ++
  (if d.Message = "" then ["Message is empty"] else [])

/-- Source `strings.Join(issues, "; ")`. -/
def joinIssues : List String → String
  | [] => ""
  | [s] => s
  | s :: rest => s ++ "; " ++ joinIssues rest

/-- Source `PgDiagnostic.Validate` including the nil-receiver branch: `none` is the
nil error (all constraints hold), `some msg` the reported error message. -/
def pgDiagnosticValidate (d : Option PgDiagnostic) : Option String :=
  match d with
  | none => some "diagnostic is nil"
  | some d =>
    if validateIssues d = [] then none
    else some ("invalid PgDiagnostic: " ++ joinIssues (validateIssues d))

/-! ## PgError and Go error chains (go/common/mterrors/pgerror.go) -/

/-- Source `mterrors.PgError`: wraps a possibly-nil `*PgDiagnostic` (the stack field
plays no role in any claim). -/
structure PgErrorV where
  diag : Option PgDiagnostic
deriving DecidableEq

/-- Source `PgError.Error` including the nil-receiver and nil-diagnostic branches:
the outer `Option` models a nil `*PgError`. -/
def pgErrorErrorStr (e : Option PgErrorV) : String :=
  match e with
  | none => "ERROR: unknown error"
  | some e =>
    match e.diag with
    | none => "ERROR: unknown error"
    | some d => d.Severity ++ ": " ++ d.Message

/-- Source `PgError.FullError` including the nil-receiver and nil-diagnostic
branches. -/
def pgErrorFullErrorStr (e : Option PgErrorV) : String :=
  match e with
  | none => "ERROR: unknown error (SQLSTATE 00000)"
  | some e =>
    match e.diag with
    | none => "ERROR: unknown error (SQLSTATE 00000)"
    | some d => d.Severity ++ ": " ++ d.Message ++ " (SQLSTATE " ++ d.Code ++ ")"

/-- The SQLSTATE code a rendered `PgError` carries: the code of the diagnostic
when present, the generic `00000` otherwise. -/
def pgErrorCodeStr (e : Option PgErrorV) : String :=
  match e with
  | none => "00000"
  | some e =>
    match e.diag with
    | none => "00000"
    | some d => d.Code

/-- A Go error value as the `errors` package sees it: a `*PgError`, a
`fmt.Errorf("...: %w", cause)` wrapper, or any other leaf error. -/
inductive GoError where
  | pgErr (e : PgErrorV)
  | wrapf (msg : String) (cause : GoError)
  | basic (msg : String)
deriving DecidableEq

/-- Source `Unwrap` over the chain: `PgError.Unwrap` returns nil (leaf), a `%w`
wrapper exposes its cause, a plain error has none. -/
def unwrapGo : GoError → Option GoError
  | .pgErr _ => none
  | .wrapf _ cause => some cause
  | .basic _ => none

/-- Source `errors.As(err, &pgErr)` for target type `*PgError`, i.e. `AsPgError`:
succeed on a `*PgError`, otherwise follow `Unwrap` (a `%w` wrapper exposes
its cause, other errors stop the walk). -/
def asPgError : GoError → Option PgErrorV
  | .pgErr e => some e
  | .wrapf _ cause => asPgError cause
  | .basic _ => none

/-- A chain of contextual `fmt.Errorf("...: %w", ·)` wrappings. -/
def wrapChain : List String → GoError → GoError
  | [], e => e
  | m :: ms, e => .wrapf m (wrapChain ms e)

/-! ## Association-list maps (Go `map[string]string`) -/

/-- Go map assignment `m[k] = v` on an association list: replace the value
at an existing key in place, otherwise append the new entry. -/
def setEntry : List (String × String) → String → String → List (String × String)
  | [], k, v => [(k, v)]
  | (k', v') :: rest, k, v =>
    if k' = k then (k, v) :: rest else (k', v') :: setEntry rest k v

/-- Go map lookup `m[k]`: the first entry with the given key. -/
def lookupEntry : List (String × String) → String → Option String
  | [], _ => none
  | (k', v') :: rest, k => if k' = k then some v' else lookupEntry rest k

/-- The key set of an association list. -/
def entryKeys (m : List (String × String)) : List String := m.map Prod.fst

/-- Apply a sequence of `m[k] = v` assignments in order. -/
def applyAll : List (String × String) → List (String × String) → List (String × String)
  | m, [] => m
  | m, kv :: rest => applyAll (setEntry m kv.1 kv.2) rest

/-- The last value a sequence of assignments writes for a key, if any. -/
def lastVal : List (String × String) → String → Option String
  | [], _ => none
  | kv :: rest, k =>
    match lastVal rest k with
    | some v => some v
    | none => if kv.1 = k then some kv.2 else none

/-! ## Session-state merge (scatterconn `mergedSettings`)

Modelled from the spec: the `mergedSettings` implementation is outside the
provided sources (only its test is), so the algorithm of spec §4.5 is
embedded directly: if both the startup-parameter and session-settings maps
are empty/absent, return absent (`none`, distinct from an empty-but-present
map); otherwise start from a copy of the startup parameters and overwrite
with every session-settings entry. -/

/-- Modelled from the spec: `mergedSettings` (scatterconn), whose Go body is
not among the provided sources. `none` models the absent (nil) map. -/
def mergedSettings (startupParams sessionSettings : List (String × String)) :
    Option (List (String × String)) :=
  if startupParams = [] ∧ sessionSettings = [] then none
  else some (applyAll startupParams sessionSettings)

/-! ## Backend connection parameter-status tracking

Modelled from the spec: `Conn.handleParameterStatus` and
`Conn.GetParameterStatus` are outside the provided sources (only their tests
are).  Spec §4.4: each announcement updates the durable `serverParams` map
and the pending `parameterStatus` buffer; reading the pending view returns
it and atomically clears it ([] models the Go nil map / "absent"). -/

/-- The parameter-tracking state of a backend `Conn`: the durable
latest-value map and the pending-changes buffer. -/
structure ConnParams where
  serverParams : List (String × String)
  parameterStatus : List (String × String)
deriving DecidableEq

/-- Modelled from the spec: `Conn.handleParameterStatus`, whose Go body is
not among the provided sources — record `(name, value)` in both views. -/
def handleParameterStatus (c : ConnParams) (name value : String) : ConnParams :=
  { serverParams := setEntry c.serverParams name value
    parameterStatus := setEntry c.parameterStatus name value }

/-- Modelled from the spec: `Conn.GetParameterStatus`, whose Go body is not
among the provided sources — return the pending buffer and clear it. -/
def GetParameterStatus (c : ConnParams) : List (String × String) × ConnParams :=
  (c.parameterStatus, { c with parameterStatus := [] })

/-- Apply a batch of parameter-status announcements in order. -/
def applyStatusUpdates : ConnParams → List (String × String) → ConnParams
  | c, [] => c
  | c, (n, v) :: rest => applyStatusUpdates (handleParameterStatus c n v) rest

/-! ## Authentication negotiation

Modelled from the spec: `Conn.handleAuthenticationRequest` is outside the
provided sources (only its tests are).  Spec §4.3: read the 4-byte method
code from the message body; accept only the OK sentinel, reject cleartext,
MD5 and every unknown method with fixed messages, and reject a body shorter
than 4 bytes before interpreting any method code.  The second component of
the result is the number of body bytes consumed. -/

/-- Source `protocol.AuthOk`: the PostgreSQL AuthenticationOk method code. -/
def AuthOk : Nat := 0

/-- Source `protocol.AuthCleartextPassword` method code. -/
def AuthCleartextPassword : Nat := 3

/-- Source `protocol.AuthMD5Password` method code. -/
def AuthMD5Password : Nat := 5

/-- The 4-byte big-endian method code at the head of the body. -/
def readInt32BE (b : List Nat) : Nat :=
  b.getD 0 0 * 16777216 + b.getD 1 0 * 65536 + b.getD 2 0 * 256 + b.getD 3 0

/-- Outcome of authentication negotiation. -/
inductive AuthResult where
  | authOk
  | rejected (msg : String)
deriving DecidableEq

/-- The malformed-message error for a body shorter than 4 bytes. -/
def authTooShortMessage : String :=
  "authentication request message too short: need at least 4 bytes"

/-- The security-policy rejection for a cleartext-password request. -/
def cleartextRejectMessage : String :=
  "cleartext password authentication is not supported for security reasons"

/-- The security-policy rejection for an MD5-password request. -/
def md5RejectMessage : String :=
  "MD5 password authentication is not supported for security reasons"

/-- The rejection for any other method, naming the numeric code. -/
def unsupportedAuthMessage (code : Nat) : String :=
  "unsupported authentication method: " ++ toString code

/-- Modelled from the spec: `Conn.handleAuthenticationRequest`, whose Go
body is not among the provided sources.  Returns the negotiation outcome
and the number of body bytes consumed. -/
def handleAuthenticationRequest (body : List Nat) : AuthResult × Nat :=
  if body.length < 4 then
    (.rejected authTooShortMessage, 0)
  else
    let code := readInt32BE body
    if code = AuthOk then (.authOk, 4)
    else if code = AuthCleartextPassword then (.rejected cleartextRejectMessage, 4)
    else if code = AuthMD5Password then (.rejected md5RejectMessage, 4)
    else (.rejected (unsupportedAuthMessage code), 4)

/-- Substring containment, in the sense the test assertion assert.Contains uses. -/
def strContains (s pat : String) : Prop :=
  ∃ a b : List Char, s.data = a ++ pat.data ++ b

/-- A diagnostic with the given tag, severity, code and message and all
optional fields empty, for concrete instances. -/
def mkTestDiag (mt : Nat) (sev code msg : String) : PgDiagnostic :=
  { MessageType := mt, Severity := sev, Code := code, Message := msg
    Detail := "", Hint := "", Position := 0, InternalPosition := 0
    InternalQuery := "", Where := "", Schema := "", Table := "", Column := ""
    DataType := "", Constraint := "" }

/-! ## Association-list lemmas -/

theorem lookupEntry_setEntry (k v : String) :
    ∀ (m : List (String × String)) (a : String),
      lookupEntry (setEntry m k v) a = if k = a then some v else lookupEntry m a := by
  intro m
  induction m with
  | nil => intro a; simp [setEntry, lookupEntry]
  | cons kv rest ih =>
    intro a
    obtain ⟨k', v'⟩ := kv
    by_cases hk : k' = k
    · subst hk
      simp only [setEntry, if_pos rfl, lookupEntry]
      by_cases ha : k' = a
      · subst ha; simp
      · simp [ha]
    · simp only [setEntry, if_neg hk, lookupEntry]
      by_cases ha : k' = a
      · subst ha
        have : ¬ k = k' := fun h => hk h.symm
        simp [this]
      · simp [ha, ih a]

theorem mem_entryKeys_setEntry (k v a : String) :
    ∀ m : List (String × String),
      (a ∈ entryKeys (setEntry m k v)) ↔ (a ∈ entryKeys m ∨ a = k) := by
  intro m
  induction m with
  | nil => simp [setEntry, entryKeys]
  | cons kv rest ih =>
    obtain ⟨k', v'⟩ := kv
    simp only [setEntry]
    by_cases hk : k' = k
    · rw [if_pos hk]
      subst hk
      simp only [entryKeys, List.map_cons, List.mem_cons]
      tauto
    · rw [if_neg hk]
      simp only [entryKeys, List.map_cons, List.mem_cons] at ih ⊢
      tauto

theorem lookupEntry_applyAll (us : List (String × String)) :
    ∀ (m : List (String × String)) (k : String),
      lookupEntry (applyAll m us) k =
        match lastVal us k with
        | some v => some v
        | none => lookupEntry m k := by
  induction us with
  | nil => intro m k; simp [applyAll, lastVal]
  | cons kv rest ih =>
    intro m k
    obtain ⟨n, v⟩ := kv
    rw [show applyAll m ((n, v) :: rest) = applyAll (setEntry m n v) rest from rfl]
    rw [ih (setEntry m n v) k]
    rw [show lastVal ((n, v) :: rest) k =
      (match lastVal rest k with
       | some w => some w
       | none => if n = k then some v else none) from rfl]
    cases hl : lastVal rest k with
    | some w => simp
    | none =>
      simp only [lookupEntry_setEntry]
      by_cases hn : n = k <;> simp [hn]

theorem mem_entryKeys_applyAll (us : List (String × String)) :
    ∀ (m : List (String × String)) (a : String),
      (a ∈ entryKeys (applyAll m us)) ↔ (a ∈ entryKeys m ∨ a ∈ entryKeys us) := by
  induction us with
  | nil => intro m a; simp [applyAll, entryKeys]
  | cons kv rest ih =>
    intro m a
    obtain ⟨n, v⟩ := kv
    rw [show applyAll m ((n, v) :: rest) = applyAll (setEntry m n v) rest from rfl]
    rw [ih (setEntry m n v) a, mem_entryKeys_setEntry]
    simp only [entryKeys, List.map_cons, List.mem_cons]
    tauto

theorem lastVal_eq_none_iff (k : String) :
    ∀ us : List (String × String), lastVal us k = none ↔ k ∉ entryKeys us := by
  intro us
  induction us with
  | nil => simp [lastVal, entryKeys]
  | cons kv rest ih =>
    obtain ⟨n, v⟩ := kv
    rw [show lastVal ((n, v) :: rest) k =
      (match lastVal rest k with
       | some w => some w
       | none => if n = k then some v else none) from rfl]
    simp only [entryKeys, List.map_cons, List.mem_cons] at ih ⊢
    cases hl : lastVal rest k with
    | some w =>
      have hkmem : k ∈ List.map Prod.fst rest := by
        by_contra hmem
        rw [ih.mpr hmem] at hl
        exact Option.noConfusion hl
      constructor
      · intro h; exact Option.noConfusion h
      · intro h; exact absurd (Or.inr hkmem) h
    | none =>
      have hnot : k ∉ List.map Prod.fst rest := ih.mp hl
      by_cases hn : n = k
      · subst hn
        simp
      · rw [if_neg hn]
        constructor
        · intro _
          rintro (h | h)
          · exact hn h.symm
          · exact hnot h
        · intro _; rfl

theorem lookupEntry_eq_none_iff (k : String) :
    ∀ m : List (String × String), lookupEntry m k = none ↔ k ∉ entryKeys m := by
  intro m
  induction m with
  | nil => simp [lookupEntry, entryKeys]
  | cons kv rest ih =>
    obtain ⟨k', v'⟩ := kv
    simp only [lookupEntry, entryKeys, List.map_cons, List.mem_cons]
    by_cases hk : k' = k
    · subst hk; simp
    · simp only [if_neg hk]
      rw [ih]
      constructor
      · intro h
        rintro (hc | hc)
        · exact hk hc.symm
        · exact h hc
      · intro h hc
        exact h (Or.inr hc)

theorem lastVal_eq_lookupEntry_of_nodup (k : String) :
    ∀ us : List (String × String), (entryKeys us).Nodup →
      lastVal us k = lookupEntry us k := by
  intro us
  induction us with
  | nil => intro _; rfl
  | cons kv rest ih =>
    intro hnd
    obtain ⟨n, v⟩ := kv
    simp only [entryKeys, List.map_cons, List.nodup_cons] at hnd
    obtain ⟨hn, hrest⟩ := hnd
    rw [show lastVal ((n, v) :: rest) k =
      (match lastVal rest k with
       | some w => some w
       | none => if n = k then some v else none) from rfl]
    simp only [lookupEntry]
    by_cases heq : n = k
    · subst heq
      have h0 : lastVal rest n = none :=
        (lastVal_eq_none_iff n rest).mpr (by simpa [entryKeys] using hn)
      simp [h0]
    · rw [ih hrest]
      cases hl : lookupEntry rest k with
      | some w => simp [heq]
      | none => simp [heq]

/-! ## Claim theorems -/

/-- C1: for every startup-parameter map P and session-settings map S (a map:
no duplicate keys), `mergedSettings` yields a map whose key set is the union
of the key sets, where every key of S maps to its S value (session wins),
every key of P not in S maps to its P value, and when both inputs are
empty/absent the result is absent (`none`), distinct from an
empty-but-present map. -/
theorem mergedSettings_correct (P S : List (String × String))
    (hS : (entryKeys S).Nodup) :
    (P = [] ∧ S = [] → mergedSettings P S = none) ∧
    (∀ M, mergedSettings P S = some M →
      (∀ k, k ∈ entryKeys M ↔ k ∈ entryKeys P ∨ k ∈ entryKeys S) ∧
      (∀ k v, lookupEntry S k = some v → lookupEntry M k = some v) ∧
      (∀ k, k ∉ entryKeys S → lookupEntry M k = lookupEntry P k)) := by
  constructor
  · rintro ⟨hP, hS0⟩
    simp [mergedSettings, hP, hS0]
  · intro M hM
    have hMeq : M = applyAll P S := by
      by_cases hcond : P = [] ∧ S = []
      · simp [mergedSettings, hcond] at hM
      · simp only [mergedSettings, if_neg hcond, Option.some.injEq] at hM
        exact hM.symm
    subst hMeq
    refine ⟨fun k => mem_entryKeys_applyAll S P k, ?_, ?_⟩
    · intro k v hv
      rw [lookupEntry_applyAll S P k]
      rw [← lastVal_eq_lookupEntry_of_nodup k S hS] at hv
      simp [hv]
    · intro k hk
      rw [lookupEntry_applyAll S P k]
      have h0 : lastVal S k = none := (lastVal_eq_none_iff k S).mpr hk
      simp [h0]

/-- Witness for C1 at the example given in the spec:
P = {DateStyle: ISO, MDY; TimeZone: UTC}, S = {DateStyle: SQL, DMY}. -/
theorem mergedSettings_correct_witness :
    mergedSettings [("DateStyle", "ISO, MDY"), ("TimeZone", "UTC")]
        [("DateStyle", "SQL, DMY")] =
      some (applyAll [("DateStyle", "ISO, MDY"), ("TimeZone", "UTC")]
        [("DateStyle", "SQL, DMY")]) ∧
    lookupEntry (applyAll [("DateStyle", "ISO, MDY"), ("TimeZone", "UTC")]
        [("DateStyle", "SQL, DMY")]) "DateStyle" = some "SQL, DMY" ∧
    lookupEntry (applyAll [("DateStyle", "ISO, MDY"), ("TimeZone", "UTC")]
        [("DateStyle", "SQL, DMY")]) "TimeZone" = some "UTC" := by
  have h := mergedSettings_correct
    [("DateStyle", "ISO, MDY"), ("TimeZone", "UTC")]
    [("DateStyle", "SQL, DMY")] (by decide)
  have hm : mergedSettings [("DateStyle", "ISO, MDY"), ("TimeZone", "UTC")]
      [("DateStyle", "SQL, DMY")] =
      some (applyAll [("DateStyle", "ISO, MDY"), ("TimeZone", "UTC")]
        [("DateStyle", "SQL, DMY")]) := by decide
  have h2 := h.2 _ hm
  refine ⟨hm, h2.2.1 "DateStyle" "SQL, DMY" (by decide), ?_⟩
  rw [h2.2.2 "TimeZone" (by decide)]
  decide

/-- C2: round-trip losslessness — decoding an encoded `Row` restores it
exactly (NULL vs empty preserved in every position), and the proto
conversion of a `PgDiagnostic` restores every one of its 15 fields
(message-type tag plus the 14 diagnostic fields; a Go `byte` tag is
below 256). -/
theorem proto_roundtrip :
    (∀ r : Row, rowFromProto (rowToProto r) = some r) ∧
    (∀ d : PgDiagnostic, d.MessageType < 256 →
      PgDiagnosticFromProto (PgDiagnosticToProto d) = d) := by
  refine ⟨rowFromProto_rowToProto, ?_⟩
  intro d h
  cases d with
  | mk mt sev code msg det hint pos ipos iq wh sch tab col dt con =>
    simp only [PgDiagnosticToProto, PgDiagnosticFromProto, PgDiagnostic.mk.injEq]
    simp only [PgDiagnostic.MessageType] at h
    have h1 : ((mt : Int) % 256) = (mt : Int) := by
      apply Int.emod_eq_of_lt (Int.natCast_nonneg _)
      exact_mod_cast h
    rw [h1, Int.toNat_natCast]
    simp

/-- Witness for C2: a row with a NULL, an empty value and a non-empty value
round-trips; a diagnostic with tag `E` (69 < 256) round-trips. -/
theorem proto_roundtrip_witness :
    rowFromProto (rowToProto ⟨[none, some [], some [104, 105]]⟩) =
      some ⟨[none, some [], some [104, 105]]⟩ ∧
    (mkTestDiag 69 "ERROR" "42P01" "relation does not exist").MessageType < 256 ∧
    PgDiagnosticFromProto (PgDiagnosticToProto
        (mkTestDiag 69 "ERROR" "42P01" "relation does not exist")) =
      mkTestDiag 69 "ERROR" "42P01" "relation does not exist" :=
  ⟨proto_roundtrip.1 _, by decide, proto_roundtrip.2 _ (by decide)⟩

/-- C3 counterexample: the claim says a row whose declared lengths exceed
the available bytes decodes to a signaled error rather than crashing, but
`RowFromProto` returns only `*Row` — it has no error channel at all — and
the slice expression `pr.Values[offset : offset+int(length)]` goes out of
range, which in Go is a runtime panic.  `none` is the embedding of that
panic: at lengths `[5]` over 2 available bytes the decoder crashes instead
of signaling. -/
theorem rowFromProto_overrun_counterexample :
    rowFromProto { lengths := [5], values := [1, 2] } = none := by decide

/-- C3 (amended): for every encoded row whose declared lengths exceed the
available concatenated bytes, decoding walks the lengths in order
maintaining an offset and deterministically aborts with a runtime panic
(the out-of-range slice, embedded as `none`) rather than returning a row or
a signaled error. -/
theorem rowFromProto_overrun_panics (pr : ProtoRow)
    (h : pr.values.length < declaredBytes pr.lengths) :
    rowFromProto pr = none := by
  unfold rowFromProto
  rw [rowFromProtoAux_overrun pr.lengths pr.values 0 (Nat.zero_le _) (by omega)]
  rfl

/-- Witness for the amended C3 theorem: one declared length of 3 over 2
available bytes. -/
theorem rowFromProto_overrun_panics_witness :
    ([7, 8] : List Nat).length < declaredBytes [3] ∧
    rowFromProto { lengths := [3], values := [7, 8] } = none :=
  ⟨by decide, rowFromProto_overrun_panics _ (by decide)⟩

/-- C4: authentication-request negotiation is deterministic — a body under
4 bytes is rejected with a "too short" malformed-message error before any
method-code interpretation; the OK sentinel authenticates; cleartext and
MD5 requests are rejected with messages containing the fragments given in the spec;
any other method code is rejected naming "unsupported authentication
method"; and no rejection consumes bytes beyond the 4-byte method code. -/
theorem handleAuthenticationRequest_correct (body : List Nat) :
    (body.length < 4 →
      handleAuthenticationRequest body = (.rejected authTooShortMessage, 0) ∧
      strContains authTooShortMessage "too short") ∧
    (4 ≤ body.length → readInt32BE body = AuthOk →
      handleAuthenticationRequest body = (.authOk, 4)) ∧
    (4 ≤ body.length → readInt32BE body = AuthCleartextPassword →
      handleAuthenticationRequest body = (.rejected cleartextRejectMessage, 4) ∧
      strContains cleartextRejectMessage "cleartext password" ∧
      strContains cleartextRejectMessage "not supported" ∧
      strContains cleartextRejectMessage "security") ∧
    (4 ≤ body.length → readInt32BE body = AuthMD5Password →
      handleAuthenticationRequest body = (.rejected md5RejectMessage, 4) ∧
      strContains md5RejectMessage "MD5 password" ∧
      strContains md5RejectMessage "not supported" ∧
      strContains md5RejectMessage "security") ∧
    (4 ≤ body.length → readInt32BE body ≠ AuthOk →
      readInt32BE body ≠ AuthCleartextPassword →
      readInt32BE body ≠ AuthMD5Password →
      handleAuthenticationRequest body =
        (.rejected (unsupportedAuthMessage (readInt32BE body)), 4) ∧
      strContains (unsupportedAuthMessage (readInt32BE body))
        "unsupported authentication method") ∧
    (∀ msg, (handleAuthenticationRequest body).1 = .rejected msg →
      (handleAuthenticationRequest body).2 ≤ 4) := by
  have hshortc : strContains authTooShortMessage "too short" := by
    refine ⟨("authentication request message " : String).data,
      (": need at least 4 bytes" : String).data, by decide⟩
  have hclear1 : strContains cleartextRejectMessage "cleartext password" := by
    refine ⟨[], (" authentication is not supported for security reasons" : String).data,
      by decide⟩
  have hclear2 : strContains cleartextRejectMessage "not supported" := by
    refine ⟨("cleartext password authentication is " : String).data,
      (" for security reasons" : String).data, by decide⟩
  have hclear3 : strContains cleartextRejectMessage "security" := by
    refine ⟨("cleartext password authentication is not supported for " : String).data,
      (" reasons" : String).data, by decide⟩
  have hmd1 : strContains md5RejectMessage "MD5 password" := by
    refine ⟨[], (" authentication is not supported for security reasons" : String).data,
      by decide⟩
  have hmd2 : strContains md5RejectMessage "not supported" := by
    refine ⟨("MD5 password authentication is " : String).data,
      (" for security reasons" : String).data, by decide⟩
  have hmd3 : strContains md5RejectMessage "security" := by
    refine ⟨("MD5 password authentication is not supported for " : String).data,
      (" reasons" : String).data, by decide⟩
  have hunsup : ∀ code : Nat,
      strContains (unsupportedAuthMessage code) "unsupported authentication method" := by
    intro code
    refine ⟨[], (": " : String).data ++ (toString code).data, ?_⟩
    show (unsupportedAuthMessage code).data = _
    unfold unsupportedAuthMessage
    have hdata : ("unsupported authentication method: " : String).data =
        ("unsupported authentication method" : String).data ++ (": " : String).data := by
      decide
    rw [String.data_append, hdata, List.nil_append, List.append_assoc]
  by_cases hlen : body.length < 4
  · refine ⟨fun _ => ⟨by simp [handleAuthenticationRequest, hlen], hshortc⟩,
      fun h _ => absurd hlen (by omega), fun h _ => absurd hlen (by omega),
      fun h _ => absurd hlen (by omega), fun h _ _ _ => absurd hlen (by omega),
      fun msg _ => by simp [handleAuthenticationRequest, hlen]⟩
  · have hge : ¬ body.length < 4 := hlen
    refine ⟨fun h => absurd h hge, ?_, ?_, ?_, ?_, ?_⟩
    · intro _ hc
      simp [handleAuthenticationRequest, hge, hc]
    · intro _ hc
      refine ⟨?_, hclear1, hclear2, hclear3⟩
      simp [handleAuthenticationRequest, hge, hc, AuthOk, AuthCleartextPassword]
    · intro _ hc
      refine ⟨?_, hmd1, hmd2, hmd3⟩
      simp [handleAuthenticationRequest, hge, hc, AuthOk, AuthCleartextPassword,
        AuthMD5Password]
    · intro _ h0 h3 h5
      exact ⟨by simp [handleAuthenticationRequest, hge, h0, h3, h5], hunsup _⟩
    · intro msg _
      by_cases h0 : readInt32BE body = AuthOk
      · simp [handleAuthenticationRequest, hge, h0]
      · by_cases h3 : readInt32BE body = AuthCleartextPassword
        · simp [handleAuthenticationRequest, hge, h0, h3, AuthOk,
            AuthCleartextPassword]
        · by_cases h5 : readInt32BE body = AuthMD5Password
          · simp [handleAuthenticationRequest, hge, h0, h3, h5, AuthOk,
              AuthCleartextPassword, AuthMD5Password]
          · simp [handleAuthenticationRequest, hge, h0, h3, h5]

/-- Witness for C4: the concrete bodies the backend-connection tests build —
cleartext (code 3), a 2-byte truncated body, and the OK sentinel. -/
theorem handleAuthenticationRequest_correct_witness :
    handleAuthenticationRequest [0, 0, 0, 3] =
      (.rejected cleartextRejectMessage, 4) ∧
    handleAuthenticationRequest [0, 0] = (.rejected authTooShortMessage, 0) ∧
    handleAuthenticationRequest [0, 0, 0, 0] = (.authOk, 4) := by
  refine ⟨((handleAuthenticationRequest_correct [0, 0, 0, 3]).2.2.1
      (by decide) (by decide)).1, ?_, ?_⟩
  · exact ((handleAuthenticationRequest_correct [0, 0]).1 (by decide)).1
  · exact (handleAuthenticationRequest_correct [0, 0, 0, 0]).2.1 (by decide) (by decide)

/-- C5: after any batch of parameter-status updates applied with the pending
buffer empty (no intervening drain), the first drain-read returns the
accumulated map in which the latest value wins for repeated keys and clears
the buffer; an immediately following second read returns empty/absent; and
the durable map holds the latest value for every parameter seen, unaffected
by draining. -/
theorem parameterStatus_correct (c : ConnParams) (us : List (String × String))
    (hpend : c.parameterStatus = []) :
    (∀ k, lookupEntry (GetParameterStatus (applyStatusUpdates c us)).1 k =
      lastVal us k) ∧
    (GetParameterStatus (GetParameterStatus (applyStatusUpdates c us)).2).1 = [] ∧
    (∀ k v, lastVal us k = some v →
      lookupEntry (applyStatusUpdates c us).serverParams k = some v) ∧
    (GetParameterStatus (applyStatusUpdates c us)).2.serverParams =
      (applyStatusUpdates c us).serverParams := by
  have hsplit : ∀ (us : List (String × String)) (c : ConnParams),
      applyStatusUpdates c us =
        ⟨applyAll c.serverParams us, applyAll c.parameterStatus us⟩ := by
    intro us
    induction us with
    | nil => intro c; simp [applyStatusUpdates, applyAll]
    | cons kv rest ih =>
      intro c
      obtain ⟨n, v⟩ := kv
      rw [show applyStatusUpdates c ((n, v) :: rest) =
        applyStatusUpdates (handleParameterStatus c n v) rest from rfl]
      rw [ih (handleParameterStatus c n v)]
      rfl
  rw [hsplit us c, hpend]
  refine ⟨?_, rfl, ?_, rfl⟩
  · intro k
    show lookupEntry (applyAll [] us) k = lastVal us k
    rw [lookupEntry_applyAll us [] k]
    cases lastVal us k <;> simp [lookupEntry]
  · intro k v hv
    show lookupEntry (applyAll c.serverParams us) k = some v
    rw [lookupEntry_applyAll us c.serverParams k, hv]

/-- Witness for C5 at the scenario of the tests: TimeZone set to UTC then
overwritten by US/Pacific, starting from a fresh connection. -/
theorem parameterStatus_correct_witness :
    lookupEntry (GetParameterStatus (applyStatusUpdates ⟨[], []⟩
      [("TimeZone", "UTC"), ("TimeZone", "US/Pacific")])).1 "TimeZone" =
      some "US/Pacific" ∧
    (GetParameterStatus (GetParameterStatus (applyStatusUpdates ⟨[], []⟩
      [("TimeZone", "UTC"), ("TimeZone", "US/Pacific")])).2).1 = [] ∧
    lookupEntry (applyStatusUpdates ⟨[], []⟩
      [("TimeZone", "UTC"), ("TimeZone", "US/Pacific")]).serverParams
      "TimeZone" = some "US/Pacific" := by
  have h := parameterStatus_correct ⟨[], []⟩
    [("TimeZone", "UTC"), ("TimeZone", "US/Pacific")] rfl
  refine ⟨?_, h.2.1, h.2.2.1 "TimeZone" "US/Pacific" (by decide)⟩
  rw [h.1 "TimeZone"]
  decide

/-- C6: `PgError` is a leaf in every error chain — `Unwrap` returns nil for
every `PgError`, and `AsPgError` extracts exactly the original `PgError`
value through any chain of contextual `%w` wrappings. -/
theorem pgError_leaf :
    (∀ e : PgErrorV, unwrapGo (.pgErr e) = none) ∧
    (∀ (msgs : List String) (e : PgErrorV),
      asPgError (wrapChain msgs (.pgErr e)) = some e) := by
  refine ⟨fun _ => rfl, ?_⟩
  intro msgs e
  induction msgs with
  | nil => rfl
  | cons m ms ih =>
    rw [show wrapChain (m :: ms) (.pgErr e) = .wrapf m (wrapChain ms (.pgErr e)) from rfl]
    rw [show asPgError (.wrapf m (wrapChain ms (.pgErr e))) =
      asPgError (wrapChain ms (.pgErr e)) from rfl]
    exact ih

/-- C7: rendering is total over absent/invalid diagnostics — for a present
diagnostic the short form is "SEVERITY: message" and the full form is the
short form plus " (SQLSTATE code)"; a nil `PgError`, a `PgError` holding a
nil diagnostic, and a nil `PgDiagnostic` all render the generic
"unknown error" with code "00000" instead of crashing. -/
theorem render_total :
    (∀ d : PgDiagnostic,
      pgErrorErrorStr (some ⟨some d⟩) = d.Severity ++ ": " ++ d.Message ∧
      pgDiagnosticErrorStr (some d) = d.Severity ++ ": " ++ d.Message) ∧
    (∀ e : Option PgErrorV,
      pgErrorFullErrorStr e =
        pgErrorErrorStr e ++ " (SQLSTATE " ++ pgErrorCodeStr e ++ ")") ∧
    (∀ d : PgDiagnostic,
      pgDiagnosticFullErrorStr (some d) =
        pgDiagnosticErrorStr (some d) ++ " (SQLSTATE " ++ d.Code ++ ")") ∧
    (pgErrorErrorStr none = "ERROR: unknown error" ∧
      pgErrorCodeStr none = "00000" ∧
      pgErrorErrorStr (some ⟨none⟩) = "ERROR: unknown error" ∧
      pgErrorCodeStr (some ⟨none⟩) = "00000" ∧
      pgDiagnosticErrorStr none = "ERROR: unknown error" ∧
      pgDiagnosticFullErrorStr none = "ERROR: unknown error (SQLSTATE 00000)") := by
  refine ⟨fun d => ⟨rfl, rfl⟩, ?_, fun d => rfl,
    rfl, rfl, rfl, rfl, rfl, rfl⟩
  intro e
  match e with
  | none => decide
  | some ⟨none⟩ => decide
  | some ⟨some d⟩ => rfl

/-- C8: `Validate` enumerates every violated constraint among {message-class
tag valid, severity non-empty, code non-empty, message non-empty} — each
violation contributes its own entry, the number of entries equals the
number of violations, and no violation is reported exactly when all four
constraints hold. -/
theorem validate_enumerates (d : PgDiagnostic) :
    (¬ validMessageType d → msgTypeIssue d ∈ validateIssues d) ∧
    (d.Severity = "" → "Severity is empty" ∈ validateIssues d) ∧
    (d.Code = "" → "Code (SQLSTATE) is empty" ∈ validateIssues d) ∧
    (d.Message = "" → "Message is empty" ∈ validateIssues d) ∧
    (validateIssues d).length =
      ((if validMessageType d then 0 else 1) + (if d.Severity = "" then 1 else 0) +
        (if d.Code = "" then 1 else 0) + (if d.Message = "" then 1 else 0)) ∧
    (validateIssues d = [] ↔
      (validMessageType d ∧ d.Severity ≠ "" ∧ d.Code ≠ "" ∧ d.Message ≠ "")) ∧
    (pgDiagnosticValidate (some d) = none ↔ validateIssues d = []) := by
  unfold pgDiagnosticValidate validateIssues
  by_cases h1 : validMessageType d <;> by_cases h2 : d.Severity = "" <;>
    by_cases h3 : d.Code = "" <;> by_cases h4 : d.Message = "" <;>
    simp [h1, h2, h3, h4]

/-- Witness for C8: a diagnostic violating all four constraints yields all
four enumerated issues. -/
theorem validate_enumerates_witness :
    ¬ validMessageType (mkTestDiag 0 "" "" "") ∧
    msgTypeIssue (mkTestDiag 0 "" "" "") ∈ validateIssues (mkTestDiag 0 "" "" "") ∧
    "Severity is empty" ∈ validateIssues (mkTestDiag 0 "" "" "") ∧
    (validateIssues (mkTestDiag 0 "" "" "")).length = 4 := by
  have h := validate_enumerates (mkTestDiag 0 "" "" "")
  refine ⟨by decide, h.1 (by decide), h.2.1 (by decide), ?_⟩
  rw [h.2.2.2.2.1]
  decide

/-- C9: classification and fatality take the point values given in the spec —
`SQLSTATEClass` is the first 2 characters of the code ("42" for "42P01"),
empty for codes shorter than 2 characters (never failing), `IsClass` is
equality on that prefix, and `IsFatal` is true for FATAL and PANIC but
false for ERROR. -/
theorem classification_points :
    (mkTestDiag 69 "ERROR" "42P01" "m").SQLSTATEClass = "42" ∧
    (mkTestDiag 69 "ERROR" "" "m").SQLSTATEClass = "" ∧
    (∀ d : PgDiagnostic, d.Code.length < 2 → d.SQLSTATEClass = "") ∧
    (∀ d : PgDiagnostic, 2 ≤ d.Code.length → d.SQLSTATEClass = d.Code.take 2) ∧
    (∀ (d : PgDiagnostic) (c : String), d.IsClass c = (d.SQLSTATEClass == c)) ∧
    (mkTestDiag 69 "FATAL" "57P01" "m").IsFatal = true ∧
    (mkTestDiag 69 "PANIC" "XX000" "m").IsFatal = true ∧
    (mkTestDiag 69 "ERROR" "42P01" "m").IsFatal = false := by
  refine ⟨by decide, by decide, ?_, ?_, fun d c => rfl, by decide, by decide,
    by decide⟩
  · intro d h
    simp [PgDiagnostic.SQLSTATEClass, h]
  · intro d h
    rw [PgDiagnostic.SQLSTATEClass, if_neg (by omega)]

/-- Witness for C9: a 1-character code classifies to empty, a 5-character
code to its first two characters. -/
theorem classification_points_witness :
    (mkTestDiag 69 "ERROR" "X" "m").Code.length < 2 ∧
    (mkTestDiag 69 "ERROR" "X" "m").SQLSTATEClass = "" ∧
    2 ≤ (mkTestDiag 69 "ERROR" "22012" "m").Code.length ∧
    (mkTestDiag 69 "ERROR" "22012" "m").SQLSTATEClass =
      (mkTestDiag 69 "ERROR" "22012" "m").Code.take 2 := by
  have h := classification_points
  exact ⟨by decide, h.2.2.1 _ (by decide), by decide, h.2.2.2.1 _ (by decide)⟩

end Multigres
